import Mathlib

/-!
Shallow embedding of the Customer CRUD service of this repository:
`services/regras_de_negocio.py` (class `ClienteService`),
`middleware/cliente_schema.py` (pydantic schemas) and
`models/modelo.py` (ORM rows).  The relational store is modelled as an
explicit `DB` value threaded through every operation; raising an
`HTTPException` is modelled as returning `.error` together with the
unchanged store.  Machine integers are `Nat`/`Int`; `datetime.utcnow`
is modelled by the clock field `DB.now`.
-/

namespace ClientesApi

/-- Row of the `clientes` table (`models/modelo.py`, class `Cliente`).
`idade`, `cnpj`, `cep`, `endereco`, `telefone` are nullable columns.
The `pedidos` relationship is represented by the `Pedido` rows of the
store whose `cliente_id` equals this row's `id`. -/
structure Cliente where
  id : Nat
  nome : String
  email : String
  idade : Option Int
  cpf : String
  cnpj : Option String
  cep : Option String
  endereco : Option String
  telefone : Option String
  data_criacao : Nat
deriving Repr, DecidableEq

/-- Row of the `pedidos` table, reduced to the columns the Customer
service reads (`id` and the foreign key `cliente_id`). -/
structure Pedido where
  id : Nat
  cliente_id : Nat
deriving Repr, DecidableEq

/-- The store: the two tables the Customer service touches, plus a
clock modelling `datetime.utcnow`. -/
structure DB where
  clientes : List Cliente
  pedidos : List Pedido
  now : Nat
deriving Repr, DecidableEq

/-- `middleware/cliente_schema.py`, `ClienteCreate`: nome, email and
cpf are required, the rest optional. -/
structure ClienteCreate where
  nome : String
  email : String
  idade : Option Int
  cpf : String
  cnpj : Option String
  cep : Option String
  endereco : Option String
  telefone : Option String
deriving Repr, DecidableEq

/-- `middleware/cliente_schema.py`, `ClienteUpdate`: the partial-update
schema declares exactly the five optional fields nome, email, idade,
telefone, endereco.  `some v` models a field present in the request
body; `none` models an absent field (pydantic `exclude_unset`). -/
structure ClienteUpdate where
  nome : Option String
  email : Option String
  idade : Option Int
  telefone : Option String
  endereco : Option String
deriving Repr, DecidableEq

/-- The `HTTPException`s raised by `ClienteService`, as a structured
error taxonomy. -/
inductive ServiceError where
  | notFound (cliente_id : Nat)
  | notFoundCpf (cpf : String)
  | duplicateCpf (cpf : String)
  | duplicateEmail (email : String)
  | hasDependentOrders (count : Nat)
  | integrityError
deriving Repr, DecidableEq

/-- The HTTP status code each failure carries: the codes of the
`HTTPException`s raised in `services/regras_de_negocio.py`, and 500
for a store-level `IntegrityError` that no handler catches. -/
def ServiceError.statusCode : ServiceError → Nat
  | .notFound _ => 404
  | .notFoundCpf _ => 404
  | .duplicateCpf _ => 400
  | .duplicateEmail _ => 400
  | .hasDependentOrders _ => 400
  | .integrityError => 500

/-- `query(Cliente).filter(Cliente.id == cliente_id).first()`. -/
def findClienteById (db : DB) (cliente_id : Nat) : Option Cliente :=
  db.clientes.find? (fun c => c.id == cliente_id)

/-- `ClienteService._validar_cpf_unico`. -/
def validar_cpf_unico (db : DB) (cpf : String) : Except ServiceError Unit :=
  match db.clientes.find? (fun c => c.cpf == cpf) with
  | some _ => .error (.duplicateCpf cpf)
  | none => .ok ()

/-- `ClienteService._validar_email_unico`. -/
def validar_email_unico (db : DB) (email : String) : Except ServiceError Unit :=
  match db.clientes.find? (fun c => c.email == email) with
  | some _ => .error (.duplicateEmail email)
  | none => .ok ()

/-- The autoincrement primary key the store assigns on insert
(one more than the largest id in the table). -/
def DB.freshId (db : DB) : Nat :=
  db.clientes.foldr (fun c m => max c.id m) 0 + 1

/-- The row `Cliente(**cliente_data.model_dump())` becomes after the
store commits it: the dumped input fields plus the store-assigned id
and the `datetime.utcnow` default for `data_criacao`. -/
def novoCliente (db : DB) (d : ClienteCreate) : Cliente :=
  { id := db.freshId, nome := d.nome, email := d.email, idade := d.idade,
    cpf := d.cpf, cnpj := d.cnpj, cep := d.cep, endereco := d.endereco,
    telefone := d.telefone, data_criacao := db.now }

/-- The UNIQUE column constraints of the `clientes` table
(`models/modelo.py`): email, cpf and cnpj are unique columns, cnpj
only for non-null values (SQL UNIQUE admits multiple NULLs).
Committing an insert that collides on one of them raises
`IntegrityError` and persists nothing. -/
def violatesUnique (db : DB) (c : Cliente) : Bool :=
  db.clientes.any (fun x =>
    x.email == c.email || x.cpf == c.cpf || (c.cnpj.isSome && x.cnpj == c.cnpj))

/-- `ClienteService.criar_cliente`: validate cpf uniqueness, then email
uniqueness, then commit the insert — which the store itself rejects
with `IntegrityError` when a UNIQUE column (in practice the unchecked
cnpj) collides. -/
def criar_cliente (db : DB) (d : ClienteCreate) : Except ServiceError Cliente × DB :=
  match validar_cpf_unico db d.cpf with
  | .error e => (.error e, db)
  | .ok _ =>
    match validar_email_unico db d.email with
    | .error e => (.error e, db)
    | .ok _ =>
      if violatesUnique db (novoCliente db d) then
        (.error .integrityError, db)
      else
        (.ok (novoCliente db d), { db with clientes := db.clientes ++ [novoCliente db d] })

/-- `ClienteService.obter_cliente_por_id` (read-only). -/
def obter_cliente_por_id (db : DB) (cliente_id : Nat) : Except ServiceError Cliente :=
  match findClienteById db cliente_id with
  | some c => .ok c
  | none => .error (.notFound cliente_id)

/-- `ClienteService.obter_cliente_por_cpf` (read-only). -/
def obter_cliente_por_cpf (db : DB) (cpf : String) : Except ServiceError Cliente :=
  match db.clientes.find? (fun c => c.cpf == cpf) with
  | some c => .ok c
  | none => .error (.notFoundCpf cpf)

/-- `ClienteService.listar_clientes`: `offset(skip).limit(limit)` in
insertion order. -/
def listar_clientes (db : DB) (skip limit : Nat) : List Cliente :=
  (db.clientes.drop skip).take limit

/-- `ClienteService.contar_clientes`. -/
def contar_clientes (db : DB) : Nat :=
  db.clientes.length

/-- Replace the first element satisfying `p` by its image under `f`
(mutating the one ORM object the session found). -/
def replaceFirst (p : α → Bool) (f : α → α) : List α → List α
  | [] => []
  | x :: xs => if p x then f x :: xs else x :: replaceFirst p f xs

/-- Remove the first element satisfying `p` (`db.delete` of the found
object). -/
def removeFirst (p : α → Bool) : List α → List α
  | [] => []
  | x :: xs => if p x then xs else x :: removeFirst p xs

/-- The `setattr` loop over `model_dump(exclude_unset=True)`: each
field present in the partial input overwrites the row's field, each
absent field is untouched. -/
def applyUpdate (u : ClienteUpdate) (c : Cliente) : Cliente :=
  { c with
    nome := u.nome.getD c.nome
    email := u.email.getD c.email
    idade := match u.idade with | some v => some v | none => c.idade
    telefone := match u.telefone with | some v => some v | none => c.telefone
    endereco := match u.endereco with | some v => some v | none => c.endereco }

/-- `ClienteService.atualizar_cliente`.  The email uniqueness check
runs only when `cliente_data.email and cliente_data.email != cliente.email`
holds in Python: the email is present, truthy (a nonempty string) and
different from the current value. -/
def atualizar_cliente (db : DB) (cliente_id : Nat) (u : ClienteUpdate) :
    Except ServiceError Cliente × DB :=
  match findClienteById db cliente_id with
  | none => (.error (.notFound cliente_id), db)
  | some c =>
    let chk : Except ServiceError Unit :=
      match u.email with
      | some e => if e != "" && e != c.email then validar_email_unico db e else .ok ()
      | none => .ok ()
    match chk with
    | .error e => (.error e, db)
    | .ok _ =>
      let c' := applyUpdate u c
      (.ok c',
       { db with clientes := replaceFirst (fun x => x.id == cliente_id) (fun _ => c') db.clientes })

/-- `ClienteService.atualizar_email`: uniqueness is checked whenever
`novo_email != cliente.email`. -/
def atualizar_email (db : DB) (cliente_id : Nat) (novo_email : String) :
    Except ServiceError Cliente × DB :=
  match findClienteById db cliente_id with
  | none => (.error (.notFound cliente_id), db)
  | some c =>
    match (if novo_email != c.email then validar_email_unico db novo_email else .ok ()) with
    | .error e => (.error e, db)
    | .ok _ =>
      let c' := { c with email := novo_email }
      (.ok c',
       { db with clientes := replaceFirst (fun x => x.id == cliente_id) (fun _ => c') db.clientes })

/-- The `cliente.pedidos` relationship: the order rows whose foreign
key points at this customer. -/
def pedidosDe (db : DB) (cliente_id : Nat) : List Pedido :=
  db.pedidos.filter (fun p => p.cliente_id == cliente_id)

/-- `ClienteService.deletar_cliente`: 404 when the id is absent, 400
carrying `len(cliente.pedidos)` when orders exist, otherwise the row is
deleted. -/
def deletar_cliente (db : DB) (cliente_id : Nat) : Except ServiceError Unit × DB :=
  match findClienteById db cliente_id with
  | none => (.error (.notFound cliente_id), db)
  | some c =>
    let n := (pedidosDe db c.id).length
    if n > 0 then
      (.error (.hasDependentOrders n), db)
    else
      (.ok (), { db with clientes := removeFirst (fun x => x.id == cliente_id) db.clientes })

/-- `ClienteService.listar_pedidos_do_cliente`. -/
def listar_pedidos_do_cliente (db : DB) (cliente_id : Nat) :
    Except ServiceError (List Pedido) :=
  match findClienteById db cliente_id with
  | none => .error (.notFound cliente_id)
  | some c => .ok (pedidosDe db c.id)

/-- ASCII lowercase folding, the case folding SQL `ilike` applies. -/
def lowerChars (s : String) : List Char :=
  s.data.map Char.toLower

/-- SQL `LIKE` pattern matching: `%` matches any (possibly empty)
sequence, `_` matches any single character, every other pattern
character matches itself. -/
def likeMatch : List Char → List Char → Bool
  | [], [] => true
  | [], _ :: _ => false
  | p₀ :: ps, [] => p₀ == '%' && likeMatch ps []
  | p₀ :: ps, c :: cs =>
    if p₀ = '%' then likeMatch ps (c :: cs) || likeMatch (p₀ :: ps) cs
    else if p₀ = '_' then likeMatch ps cs
    else (p₀ == c) && likeMatch ps cs
termination_by p s => (s.length, p.length)

/-- `ClienteService.buscar_por_nome`:
`filter(Cliente.nome.ilike(f"%\x7bnome\x7d%"))`, i.e. case-insensitive
`LIKE` against the pattern `"%" + nome + "%"`. -/
def buscar_por_nome (db : DB) (nome : String) : List Cliente :=
  db.clientes.filter (fun c =>
    likeMatch ('%' :: (lowerChars nome ++ ['%'])) (lowerChars c.nome))

/-! ### Helper lemmas about the validators and the fresh id -/

theorem validar_cpf_unico_ok (db : DB) (cpf : String)
    (h : ∀ c ∈ db.clientes, c.cpf ≠ cpf) :
    validar_cpf_unico db cpf = .ok () := by
  have h0 : db.clientes.find? (fun c => c.cpf == cpf) = none :=
    List.find?_eq_none.mpr (fun c hc => by simp [h c hc])
  unfold validar_cpf_unico
  rw [h0]

theorem validar_email_unico_ok (db : DB) (email : String)
    (h : ∀ c ∈ db.clientes, c.email ≠ email) :
    validar_email_unico db email = .ok () := by
  have h0 : db.clientes.find? (fun c => c.email == email) = none :=
    List.find?_eq_none.mpr (fun c hc => by simp [h c hc])
  unfold validar_email_unico
  rw [h0]

theorem validar_cpf_unico_error (db : DB) (cpf : String)
    (h : ∃ c ∈ db.clientes, c.cpf = cpf) :
    validar_cpf_unico db cpf = .error (.duplicateCpf cpf) := by
  obtain ⟨c, hc, hcpf⟩ := h
  have h1 : (db.clientes.find? (fun c => c.cpf == cpf)).isSome := by
    rw [List.find?_isSome]
    exact ⟨c, hc, by simp [hcpf]⟩
  obtain ⟨x, hx⟩ := Option.isSome_iff_exists.mp h1
  unfold validar_cpf_unico
  rw [hx]

theorem validar_email_unico_error (db : DB) (email : String)
    (h : ∃ c ∈ db.clientes, c.email = email) :
    validar_email_unico db email = .error (.duplicateEmail email) := by
  obtain ⟨c, hc, hemail⟩ := h
  have h1 : (db.clientes.find? (fun c => c.email == email)).isSome := by
    rw [List.find?_isSome]
    exact ⟨c, hc, by simp [hemail]⟩
  obtain ⟨x, hx⟩ := Option.isSome_iff_exists.mp h1
  unfold validar_email_unico
  rw [hx]

theorem le_foldr_max (l : List Cliente) :
    ∀ c ∈ l, c.id ≤ l.foldr (fun c m => max c.id m) 0 := by
  induction l with
  | nil => intro c hc; cases hc
  | cons x xs ih =>
    intro c hc
    rcases List.mem_cons.mp hc with h | h
    · subst h; exact le_max_left _ _
    · exact le_trans (ih c h) (le_max_right _ _)

theorem freshId_gt (db : DB) : ∀ c ∈ db.clientes, c.id < db.freshId := by
  intro c hc
  exact Nat.lt_succ_of_le (le_foldr_max db.clientes c hc)

/-! ### Claims about Create -/

theorem violatesUnique_false (db : DB) (d : ClienteCreate)
    (hcpf : ∀ c ∈ db.clientes, c.cpf ≠ d.cpf)
    (hemail : ∀ c ∈ db.clientes, c.email ≠ d.email)
    (hcnpj : ∀ s, d.cnpj = some s → ∀ c ∈ db.clientes, c.cnpj ≠ some s) :
    violatesUnique db (novoCliente db d) = false := by
  unfold violatesUnique
  rw [List.any_eq_false]
  intro x hx
  cases hc : d.cnpj with
  | none => simp [novoCliente, hemail x hx, hcpf x hx, hc]
  | some s => simp [novoCliente, hemail x hx, hcpf x hx, hc, hcnpj s hc x hx]

/-- C1 (amended): for every Create input whose cpf and email are not
already stored, and whose cnpj — when present — is not already stored
either (otherwise the table's UNIQUE constraint aborts the commit),
Create succeeds, assigns an identifier no stored customer has and the
current clock as creation timestamp, persists the record, and GetByID
on the new identifier returns the very record Create returned. -/
theorem c1_create_then_get (db : DB) (d : ClienteCreate)
    (hcpf : ∀ c ∈ db.clientes, c.cpf ≠ d.cpf)
    (hemail : ∀ c ∈ db.clientes, c.email ≠ d.email)
    (hcnpj : ∀ s, d.cnpj = some s → ∀ c ∈ db.clientes, c.cnpj ≠ some s) :
    ∃ novo : Cliente, ∃ db' : DB,
      criar_cliente db d = (.ok novo, db') ∧
      (∀ c ∈ db.clientes, c.id ≠ novo.id) ∧
      novo.data_criacao = db.now ∧
      db'.clientes = db.clientes ++ [novo] ∧
      obter_cliente_por_id db' novo.id = .ok novo := by
  have h1 := validar_cpf_unico_ok db d.cpf hcpf
  have h2 := validar_email_unico_ok db d.email hemail
  have hviol := violatesUnique_false db d hcpf hemail hcnpj
  refine ⟨novoCliente db d, { db with clientes := db.clientes ++ [novoCliente db d] },
    ?_, ?_, rfl, rfl, ?_⟩
  · simp only [criar_cliente, h1, h2, hviol, Bool.false_eq_true, if_false]
  · intro c hc
    exact Nat.ne_of_lt (freshId_gt db c hc)
  · have h3 : db.clientes.find? (fun c => c.id == (novoCliente db d).id) = none :=
      List.find?_eq_none.mpr (fun c hc => by
        simp [novoCliente, Nat.ne_of_lt (freshId_gt db c hc)])
    simp only [obter_cliente_por_id, findClienteById, List.find?_append, h3, Option.none_or,
      List.find?_cons, beq_self_eq_true]

/-- C2: Create on a state already holding the input's cpf fails with
DuplicateTaxID (HTTP 400) and leaves the store unchanged; Create on a
state with fresh cpf but an already stored email fails with
DuplicateEmail (HTTP 400) and leaves the store unchanged. -/
theorem c2_create_duplicate_fails (db : DB) (d : ClienteCreate) :
    ((∃ c ∈ db.clientes, c.cpf = d.cpf) →
      criar_cliente db d = (.error (.duplicateCpf d.cpf), db) ∧
      (ServiceError.duplicateCpf d.cpf).statusCode = 400) ∧
    ((∀ c ∈ db.clientes, c.cpf ≠ d.cpf) → (∃ c ∈ db.clientes, c.email = d.email) →
      criar_cliente db d = (.error (.duplicateEmail d.email), db) ∧
      (ServiceError.duplicateEmail d.email).statusCode = 400) := by
  constructor
  · intro h
    refine ⟨?_, rfl⟩
    simp only [criar_cliente, validar_cpf_unico_error db d.cpf h]
  · intro hcpf hemail
    refine ⟨?_, rfl⟩
    simp only [criar_cliente, validar_cpf_unico_ok db d.cpf hcpf,
      validar_email_unico_error db d.email hemail]

/-- C10: when both the cpf and the email of the Create input collide
with stored customers, Create fails with DuplicateTaxID — the cpf
validation runs first, so the email check is never reached. -/
theorem c10_cpf_checked_before_email (db : DB) (d : ClienteCreate)
    (hcpf : ∃ c ∈ db.clientes, c.cpf = d.cpf)
    (_hemail : ∃ c ∈ db.clientes, c.email = d.email) :
    criar_cliente db d = (.error (.duplicateCpf d.cpf), db) := by
  simp only [criar_cliente, validar_cpf_unico_error db d.cpf hcpf]

/-! ### Concrete stores and inputs used by the witnesses -/

def exCliente1 : Cliente :=
  { id := 1, nome := "Maria Silva", email := "maria@ex.com", idade := some 30,
    cpf := "12345678901", cnpj := none, cep := none, endereco := none,
    telefone := none, data_criacao := 5 }

def exDB1 : DB := { clientes := [exCliente1], pedidos := [], now := 9 }

def exCreateFresh : ClienteCreate :=
  { nome := "Joao Souza", email := "joao@ex.com", idade := none,
    cpf := "22345678901", cnpj := none, cep := none, endereco := none,
    telefone := none }

def exCreateSameCpf : ClienteCreate :=
  { nome := "Ana Lima", email := "ana@ex.com", idade := none,
    cpf := "12345678901", cnpj := none, cep := none, endereco := none,
    telefone := none }

def exCreateSameEmail : ClienteCreate :=
  { nome := "Ana Lima", email := "maria@ex.com", idade := none,
    cpf := "32345678901", cnpj := none, cep := none, endereco := none,
    telefone := none }

def exCreateBothDup : ClienteCreate :=
  { nome := "Ana Lima", email := "maria@ex.com", idade := none,
    cpf := "12345678901", cnpj := none, cep := none, endereco := none,
    telefone := none }

def exClienteCnpj : Cliente :=
  { id := 4, nome := "Carlos Dias", email := "carlos@ex.com", idade := none,
    cpf := "66345678901", cnpj := some "12345678000199", cep := none,
    endereco := none, telefone := none, data_criacao := 3 }

def exDBCnpj : DB := { clientes := [exClienteCnpj], pedidos := [], now := 4 }

def exCreateDupCnpj : ClienteCreate :=
  { nome := "Bruno Reis", email := "bruno@ex.com", idade := none,
    cpf := "77345678901", cnpj := some "12345678000199", cep := none,
    endereco := none, telefone := none }

/-- C1 counterexample: a Create input whose cpf and email are fresh
but whose cnpj equals a stored customer's cnpj hits the table's
UNIQUE constraint at commit — Create raises IntegrityError and
persists nothing, so the original claim fails at this input. -/
theorem c1_counterexample :
    (∀ c ∈ exDBCnpj.clientes, c.cpf ≠ exCreateDupCnpj.cpf) ∧
    (∀ c ∈ exDBCnpj.clientes, c.email ≠ exCreateDupCnpj.email) ∧
    criar_cliente exDBCnpj exCreateDupCnpj = (.error .integrityError, exDBCnpj) ∧
    ¬ ∃ novo db', criar_cliente exDBCnpj exCreateDupCnpj = (.ok novo, db') := by
  refine ⟨by decide, by decide, rfl, ?_⟩
  rintro ⟨novo, db', h⟩
  exact Except.noConfusion
    (show Except.error ServiceError.integrityError = Except.ok novo from congrArg Prod.fst h)

/-- Witness for the amended C1 at a concrete one-customer store and a
fresh input. -/
theorem c1_create_then_get_witness :
    ∃ novo : Cliente, ∃ db' : DB,
      criar_cliente exDB1 exCreateFresh = (.ok novo, db') ∧
      (∀ c ∈ exDB1.clientes, c.id ≠ novo.id) ∧
      novo.data_criacao = exDB1.now ∧
      db'.clientes = exDB1.clientes ++ [novo] ∧
      obter_cliente_por_id db' novo.id = .ok novo :=
  c1_create_then_get exDB1 exCreateFresh (by decide) (by decide)
    (by intro s hs; cases hs)

/-- Witness for C2: both failure branches observed on the concrete
store. -/
theorem c2_create_duplicate_fails_witness :
    criar_cliente exDB1 exCreateSameCpf =
      (.error (.duplicateCpf "12345678901"), exDB1) ∧
    criar_cliente exDB1 exCreateSameEmail =
      (.error (.duplicateEmail "maria@ex.com"), exDB1) :=
  ⟨((c2_create_duplicate_fails exDB1 exCreateSameCpf).1
      ⟨exCliente1, by decide, by decide⟩).1,
   ((c2_create_duplicate_fails exDB1 exCreateSameEmail).2
      (by decide) ⟨exCliente1, by decide, by decide⟩).1⟩

/-- Witness for C10 at a concrete store where both cpf and email
collide. -/
theorem c10_cpf_checked_before_email_witness :
    criar_cliente exDB1 exCreateBothDup =
      (.error (.duplicateCpf "12345678901"), exDB1) :=
  c10_cpf_checked_before_email exDB1 exCreateBothDup
    ⟨exCliente1, by decide, by decide⟩ ⟨exCliente1, by decide, by decide⟩

/-! ### Delete -/

theorem removeFirst_of_find? {α} (p : α → Bool) :
    ∀ (l : List α) (c : α), l.find? p = some c →
      ∃ l₁ l₂, l = l₁ ++ c :: l₂ ∧ (∀ x ∈ l₁, p x = false) ∧
        removeFirst p l = l₁ ++ l₂ := by
  intro l
  induction l with
  | nil => intro c h; cases h
  | cons x xs ih =>
    intro c h
    rw [List.find?_cons] at h
    cases hx : p x with
    | true =>
      rw [hx] at h
      cases h
      exact ⟨[], xs, rfl, by simp, by simp [removeFirst, hx]⟩
    | false =>
      rw [hx] at h
      obtain ⟨l₁, l₂, he, hall, hrm⟩ := ih c h
      refine ⟨x :: l₁, l₂, by simp [he], ?_, ?_⟩
      · intro y hy
        rcases List.mem_cons.mp hy with h' | h'
        · subst h'; exact hx
        · exact hall y h'
      · simp [removeFirst, hx, hrm]

theorem find?_removeFirst_id (cliente_id : Nat) :
    ∀ l : List Cliente, l.Pairwise (fun a b => a.id ≠ b.id) →
      (removeFirst (fun x => x.id == cliente_id) l).find?
        (fun x => x.id == cliente_id) = none := by
  intro l
  induction l with
  | nil => intro _; rfl
  | cons x xs ih =>
    intro hp
    rw [List.pairwise_cons] at hp
    cases hx : (x.id == cliente_id) with
    | true =>
      rw [removeFirst, if_pos hx]
      refine List.find?_eq_none.mpr (fun y hy => ?_)
      have hxy : x.id ≠ y.id := hp.1 y hy
      have hxid : x.id = cliente_id := by simpa using hx
      simp [← hxid, Ne.symm hxy]
    | false =>
      rw [removeFirst, if_neg (by simp [hx])]
      rw [List.find?_cons, hx]
      exact ih hp.2

/-- C3: Delete on a nonexistent id fails with NotFound and changes
nothing; Delete on an existing customer with at least one associated
order fails with HasDependentOrders carrying the order count (HTTP
400) and changes nothing; Delete on an existing customer with zero
orders removes exactly that record, and GetByID on the same id then
fails with NotFound.  The primary-key hypothesis `hids` states that
stored ids are pairwise distinct. -/
theorem c3_delete_contract (db : DB) (cliente_id : Nat)
    (hids : db.clientes.Pairwise (fun a b => a.id ≠ b.id)) :
    (findClienteById db cliente_id = none →
      deletar_cliente db cliente_id = (.error (.notFound cliente_id), db)) ∧
    (∀ c, findClienteById db cliente_id = some c →
      (pedidosDe db c.id).length > 0 →
      deletar_cliente db cliente_id =
        (.error (.hasDependentOrders (pedidosDe db c.id).length), db) ∧
      (ServiceError.hasDependentOrders (pedidosDe db c.id).length).statusCode = 400) ∧
    (∀ c, findClienteById db cliente_id = some c →
      (pedidosDe db c.id).length = 0 →
      ∃ db' l₁ l₂,
        deletar_cliente db cliente_id = (.ok (), db') ∧
        db.clientes = l₁ ++ c :: l₂ ∧
        db'.clientes = l₁ ++ l₂ ∧
        db'.pedidos = db.pedidos ∧
        obter_cliente_por_id db' cliente_id = .error (.notFound cliente_id)) := by
  refine ⟨?_, ?_, ?_⟩
  · intro h
    simp only [deletar_cliente, h]
  · intro c hfind hn
    refine ⟨?_, rfl⟩
    simp only [deletar_cliente, hfind]
    rw [if_pos hn]
  · intro c hfind hn
    have hfind' : db.clientes.find? (fun x => x.id == cliente_id) = some c := hfind
    obtain ⟨l₁, l₂, he, _, hrm⟩ :=
      removeFirst_of_find? (fun x => x.id == cliente_id) db.clientes c hfind'
    refine ⟨{ db with clientes := removeFirst (fun x => x.id == cliente_id) db.clientes },
      l₁, l₂, ?_, he, hrm, rfl, ?_⟩
    · simp only [deletar_cliente, hfind]
      rw [if_neg (by omega)]
    · have h0 := find?_removeFirst_id cliente_id db.clientes hids
      simp only [obter_cliente_por_id, findClienteById, h0]

/-! ### Update: frame property -/

/-- Inversion for a successful `atualizar_cliente`: the returned record
is `applyUpdate u c` and the store holds it in place of `c`. -/
theorem atualizar_cliente_ok_inv (db : DB) (cliente_id : Nat) (u : ClienteUpdate)
    (c c' : Cliente) (db' : DB)
    (hfind : findClienteById db cliente_id = some c)
    (hok : atualizar_cliente db cliente_id u = (.ok c', db')) :
    c' = applyUpdate u c ∧
    db' = { db with
            clientes := replaceFirst (fun x => x.id == cliente_id)
              (fun _ => applyUpdate u c) db.clientes } := by
  simp only [atualizar_cliente, hfind] at hok
  cases hu : u.email with
  | none =>
    simp only [hu, Prod.mk.injEq, Except.ok.injEq] at hok
    exact ⟨hok.1.symm, hok.2.symm⟩
  | some e =>
    simp only [hu] at hok
    by_cases hc : (e != "" && e != c.email) = true
    · rw [if_pos hc] at hok
      cases hval : validar_email_unico db e with
      | error err =>
        rw [hval] at hok
        simp only [Prod.mk.injEq] at hok
        exact absurd hok.1 (by simp)
      | ok _ =>
        rw [hval] at hok
        simp only [Prod.mk.injEq, Except.ok.injEq] at hok
        exact ⟨hok.1.symm, hok.2.symm⟩
    · rw [if_neg hc] at hok
      simp only [Prod.mk.injEq, Except.ok.injEq] at hok
      exact ⟨hok.1.symm, hok.2.symm⟩

/-- C4: a successful partial Update overwrites exactly the fields
present in the input; every absent field, and the non-updatable id,
creation timestamp, cpf, cnpj and cep, keep their pre-update values,
both in the returned record and in the stored one. -/
theorem c4_update_frame (db : DB) (cliente_id : Nat) (u : ClienteUpdate)
    (c c' : Cliente) (db' : DB)
    (hfind : findClienteById db cliente_id = some c)
    (hok : atualizar_cliente db cliente_id u = (.ok c', db')) :
    (∀ v, u.nome = some v → c'.nome = v) ∧
    (u.nome = none → c'.nome = c.nome) ∧
    (∀ v, u.email = some v → c'.email = v) ∧
    (u.email = none → c'.email = c.email) ∧
    (∀ v, u.idade = some v → c'.idade = some v) ∧
    (u.idade = none → c'.idade = c.idade) ∧
    (∀ v, u.telefone = some v → c'.telefone = some v) ∧
    (u.telefone = none → c'.telefone = c.telefone) ∧
    (∀ v, u.endereco = some v → c'.endereco = some v) ∧
    (u.endereco = none → c'.endereco = c.endereco) ∧
    c'.id = c.id ∧ c'.data_criacao = c.data_criacao ∧
    c'.cpf = c.cpf ∧ c'.cnpj = c.cnpj ∧ c'.cep = c.cep ∧
    db'.clientes = replaceFirst (fun x => x.id == cliente_id) (fun _ => c') db.clientes ∧
    db'.pedidos = db.pedidos := by
  obtain ⟨hc', hdb'⟩ := atualizar_cliente_ok_inv db cliente_id u c c' db' hfind hok
  subst hc'
  subst hdb'
  refine ⟨fun v hv => by simp [applyUpdate, hv],
    fun hv => by simp [applyUpdate, hv],
    fun v hv => by simp [applyUpdate, hv],
    fun hv => by simp [applyUpdate, hv],
    fun v hv => by simp [applyUpdate, hv],
    fun hv => by simp [applyUpdate, hv],
    fun v hv => by simp [applyUpdate, hv],
    fun hv => by simp [applyUpdate, hv],
    fun v hv => by simp [applyUpdate, hv],
    fun hv => by simp [applyUpdate, hv],
    rfl, rfl, rfl, rfl, rfl, rfl, rfl⟩

def exCliente2 : Cliente :=
  { id := 2, nome := "Pedro Alves", email := "pedro@ex.com", idade := none,
    cpf := "98765432100", cnpj := none, cep := none, endereco := none,
    telefone := none, data_criacao := 6 }

def exDB3 : DB :=
  { clientes := [exCliente1, exCliente2], pedidos := [{ id := 1, cliente_id := 2 }], now := 9 }

/-- Witness for C3: on a concrete store, Delete fails with NotFound on
id 99, fails with HasDependentOrders 1 on the customer owning one
order, and removes the order-free customer so that GetByID then fails. -/
theorem c3_delete_contract_witness :
    deletar_cliente exDB3 99 = (.error (.notFound 99), exDB3) ∧
    deletar_cliente exDB3 2 = (.error (.hasDependentOrders 1), exDB3) ∧
    (∃ db' l₁ l₂,
      deletar_cliente exDB3 1 = (.ok (), db') ∧
      exDB3.clientes = l₁ ++ exCliente1 :: l₂ ∧
      db'.clientes = l₁ ++ l₂ ∧
      db'.pedidos = exDB3.pedidos ∧
      obter_cliente_por_id db' 1 = .error (.notFound 1)) :=
  ⟨(c3_delete_contract exDB3 99 (by decide)).1 (by decide),
   ((c3_delete_contract exDB3 2 (by decide)).2.1 exCliente2 (by decide) (by decide)).1,
   (c3_delete_contract exDB3 1 (by decide)).2.2 exCliente1 (by decide) (by decide)⟩

def exUpdName : ClienteUpdate :=
  { nome := some "Maria Souza", email := none, idade := none,
    telefone := some "11999990000", endereco := none }

def exCliente1Upd : Cliente :=
  { id := 1, nome := "Maria Souza", email := "maria@ex.com", idade := some 30,
    cpf := "12345678901", cnpj := none, cep := none, endereco := none,
    telefone := some "11999990000", data_criacao := 5 }

/-- Witness for C4: updating only nome and telefone changes exactly
those two fields, while email, cpf and the creation timestamp keep
their old values. -/
theorem c4_update_frame_witness :
    exCliente1Upd.nome = "Maria Souza" ∧
    exCliente1Upd.telefone = some "11999990000" ∧
    exCliente1Upd.email = exCliente1.email ∧
    exCliente1Upd.cpf = exCliente1.cpf ∧
    exCliente1Upd.data_criacao = exCliente1.data_criacao := by
  have h := c4_update_frame exDB1 1 exUpdName exCliente1 exCliente1Upd
    { exDB1 with clientes := [exCliente1Upd] } rfl rfl
  obtain ⟨h1, _, _, h4, _, _, h7, _, _, _, _, h12, h13, _⟩ := h
  exact ⟨h1 _ rfl, h7 _ rfl, h4 rfl, h13, h12⟩

/-! ### Update: email uniqueness -/

/-- C5: an Update supplying an email already used by a different
stored customer fails with DuplicateEmail (HTTP 400) and changes
nothing, while an Update supplying the customer's own current email
does not fail the uniqueness check and succeeds.  The hypotheses state
the store validity the boundary guarantees: stored emails are nonempty
(pydantic `EmailStr`) and pairwise distinct (the uniqueness invariant). -/
theorem c5_update_email_uniqueness (db : DB) (cliente_id : Nat) (u : ClienteUpdate)
    (c : Cliente)
    (hfind : findClienteById db cliente_id = some c)
    (hne : ∀ x ∈ db.clientes, x.email ≠ "")
    (huniq : db.clientes.Pairwise (fun a b => a.email ≠ b.email)) :
    (∀ e, u.email = some e → (∃ c₂ ∈ db.clientes, c₂ ≠ c ∧ c₂.email = e) →
      atualizar_cliente db cliente_id u = (.error (.duplicateEmail e), db) ∧
      (ServiceError.duplicateEmail e).statusCode = 400) ∧
    (u.email = some c.email →
      ∃ c' db', atualizar_cliente db cliente_id u = (.ok c', db')) := by
  have hfind' : db.clientes.find? (fun x => x.id == cliente_id) = some c := hfind
  have hcmem : c ∈ db.clientes := List.mem_of_find?_eq_some hfind'
  constructor
  · intro e hu ⟨c₂, hc₂, hc₂ne, hc₂e⟩
    have hsym : Symmetric (fun a b : Cliente => a.email ≠ b.email) :=
      fun a b h => h.symm
    have hedif : e ≠ c.email := by
      have := List.Pairwise.forall hsym huniq hc₂ hcmem hc₂ne
      rw [← hc₂e]
      exact this
    have he0 : e ≠ "" := hc₂e ▸ hne c₂ hc₂
    refine ⟨?_, rfl⟩
    simp only [atualizar_cliente, hfind, hu]
    rw [if_pos (by simp [he0, hedif])]
    rw [validar_email_unico_error db e ⟨c₂, hc₂, hc₂e⟩]
  · intro hu
    simp only [atualizar_cliente, hfind, hu]
    rw [if_neg (by simp)]
    exact ⟨_, _, rfl⟩

def exUpdEmailDup : ClienteUpdate :=
  { nome := none, email := some "pedro@ex.com", idade := none,
    telefone := none, endereco := none }

def exUpdEmailSelf : ClienteUpdate :=
  { nome := none, email := some "maria@ex.com", idade := none,
    telefone := none, endereco := none }

/-- Witness for C5 on the concrete two-customer store: updating
customer 1 to customer 2's email fails with DuplicateEmail, updating
customer 1 to its own email succeeds. -/
theorem c5_update_email_uniqueness_witness :
    atualizar_cliente exDB3 1 exUpdEmailDup =
      (.error (.duplicateEmail "pedro@ex.com"), exDB3) ∧
    (∃ c' db', atualizar_cliente exDB3 1 exUpdEmailSelf = (.ok c', db')) :=
  ⟨((c5_update_email_uniqueness exDB3 1 exUpdEmailDup exCliente1 rfl
      (by decide) (by decide)).1 "pedro@ex.com" rfl
      ⟨exCliente2, by decide, by decide, rfl⟩).1,
   (c5_update_email_uniqueness exDB3 1 exUpdEmailSelf exCliente1 rfl
      (by decide) (by decide)).2 rfl⟩

/-! ### UpdateEmail refines Update -/

/-- The partial input supplying only the email field. -/
def emailOnly (e : String) : ClienteUpdate :=
  { nome := none, email := some e, idade := none, telefone := none, endereco := none }

/-- C8: on every store whose emails are nonempty (as the boundary's
`EmailStr` validation guarantees), UpdateEmail(id, e) returns the same
result and the same post-state as Update(id, partial input supplying
only email = e): same NotFound check, same DuplicateEmail check, no
other field affected. -/
theorem c8_update_email_equiv (db : DB) (cliente_id : Nat) (novo_email : String)
    (hne : ∀ x ∈ db.clientes, x.email ≠ "") :
    atualizar_email db cliente_id novo_email =
      atualizar_cliente db cliente_id (emailOnly novo_email) := by
  cases hfind : findClienteById db cliente_id with
  | none => simp only [atualizar_email, atualizar_cliente, hfind]
  | some c =>
    have hfind' : db.clientes.find? (fun x => x.id == cliente_id) = some c := hfind
    simp only [atualizar_email, atualizar_cliente, emailOnly, hfind]
    by_cases he : novo_email = c.email
    · subst he
      rw [if_neg (by simp), if_neg (by simp)]
      exact rfl
    · by_cases h0 : novo_email = ""
      · subst h0
        have hc0 : c.email ≠ "" := hne c (List.mem_of_find?_eq_some hfind')
        rw [if_pos (by simp [Ne.symm hc0]), if_neg (by simp)]
        rw [validar_email_unico_ok db "" (fun x hx => hne x hx)]
        exact rfl
      · rw [if_pos (by simp [he]), if_pos (by simp [h0, he])]
        exact rfl

/-- Witness for C8 at a concrete store and email. -/
theorem c8_update_email_equiv_witness :
    atualizar_email exDB3 1 "nova@ex.com" =
      atualizar_cliente exDB3 1 (emailOnly "nova@ex.com") :=
  c8_update_email_equiv exDB3 1 "nova@ex.com" (by decide)

/-! ### The Update field set -/

/-- The Customer attribute set of §3 of the spec (besides the
system-assigned identifier and creation timestamp). -/
inductive CampoCliente where
  | nome | email | idade | cpf | cnpj | cep | endereco | telefone
deriving DecidableEq, Repr

/-- The eight §3 fields. -/
def camposSpec3 : List CampoCliente :=
  [.nome, .email, .idade, .cpf, .cnpj, .cep, .endereco, .telefone]

/-- Whether a field is present in a `ClienteUpdate` request body.  The
schema declares only nome, email, idade, telefone and endereco, so
cpf, cnpj and cep can never be supplied. -/
def presentIn (u : ClienteUpdate) : CampoCliente → Bool
  | .nome => u.nome.isSome
  | .email => u.email.isSome
  | .idade => u.idade.isSome
  | .telefone => u.telefone.isSome
  | .endereco => u.endereco.isSome
  | .cpf => false
  | .cnpj => false
  | .cep => false

/-- The set of fields a given Update input supplies. -/
def updateFields (u : ClienteUpdate) : List CampoCliente :=
  camposSpec3.filter (presentIn u)

/-- The five fields the `ClienteUpdate` schema declares. -/
def camposUpdate : List CampoCliente :=
  [.nome, .email, .idade, .telefone, .endereco]

theorem if_some_isSome_iff {α} (v : α) (P : Prop) [Decidable P] :
    (if P then some v else none).isSome = true ↔ P := by
  split <;> simp_all

/-- C9 counterexample: the subset containing only the tax ID (cpf) is
a subset of the §3 field set, yet no well-formed Update input supplies
exactly it — `ClienteUpdate` has no cpf field. -/
theorem c9_counterexample :
    ¬ ∃ u : ClienteUpdate,
      ∀ f : CampoCliente, f ∈ updateFields u ↔ f ∈ [CampoCliente.cpf] := by
  rintro ⟨u, h⟩
  have h1 : CampoCliente.cpf ∈ updateFields u := (h .cpf).mpr (by simp)
  have h2 : presentIn u CampoCliente.cpf = true := (List.mem_filter.mp h1).2
  simp [presentIn] at h2

/-- C9 (amended): Update accepts as its partial input exactly the
subsets of the five fields its schema declares — nome, email, idade,
telefone, endereco: for every such subset there is a well-formed
Update input supplying exactly those fields. -/
theorem c9_update_field_subsets (S : List CampoCliente)
    (hS : ∀ f ∈ S, f ∈ camposUpdate) :
    ∃ u : ClienteUpdate, ∀ f : CampoCliente, f ∈ updateFields u ↔ f ∈ S := by
  refine ⟨{ nome := if CampoCliente.nome ∈ S then some "n" else none,
            email := if CampoCliente.email ∈ S then some "e" else none,
            idade := if CampoCliente.idade ∈ S then some 1 else none,
            telefone := if CampoCliente.telefone ∈ S then some "t" else none,
            endereco := if CampoCliente.endereco ∈ S then some "r" else none }, ?_⟩
  intro f
  cases f <;>
    simp [updateFields, camposSpec3, presentIn, if_some_isSome_iff] <;>
    (intro hmem; have h' := hS _ hmem; simp [camposUpdate] at h')

/-- Witness for the amended C9 at the concrete subset {nome, telefone}. -/
theorem c9_update_field_subsets_witness :
    ∃ u : ClienteUpdate, ∀ f : CampoCliente,
      f ∈ updateFields u ↔ f ∈ [CampoCliente.nome, CampoCliente.telefone] :=
  c9_update_field_subsets [CampoCliente.nome, CampoCliente.telefone] (by decide)

/-! ### SearchByName -/

/-- Boolean substring test: `q` occurs contiguously in `s`. -/
def isInfixB (q : List Char) : List Char → Bool
  | [] => q.isEmpty
  | c :: s' => q.isPrefixOf (c :: s') || isInfixB q s'

/-- The claim's matching criterion: the customer's name contains the
query as a case-insensitive substring. -/
def nameContainsCI (nome query : String) : Bool :=
  isInfixB (lowerChars query) (lowerChars nome)

theorem isInfixB_iff (q : List Char) :
    ∀ s : List Char, isInfixB q s = true ↔ q <:+: s := by
  intro s
  induction s with
  | nil =>
    simp only [isInfixB, List.isEmpty_iff, List.infix_nil]
  | cons c s' ih =>
    simp only [isInfixB, Bool.or_eq_true, List.isPrefixOf_iff_prefix, ih]
    exact (List.infix_cons_iff).symm

theorem likeMatch_percent_nil : ∀ s : List Char, likeMatch ['%'] s = true := by
  intro s
  induction s with
  | nil => simp [likeMatch]
  | cons c cs ih => simp [likeMatch, ih]

theorem likeMatch_append_percent (p : List Char)
    (hp : ∀ ch ∈ p, ch ≠ '%' ∧ ch ≠ '_') :
    ∀ s : List Char, likeMatch (p ++ ['%']) s = p.isPrefixOf s := by
  induction p with
  | nil =>
    intro s
    simp [likeMatch_percent_nil s, List.isPrefixOf]
  | cons c p' ih =>
    intro s
    have hc := hp c (by simp)
    have hp' : ∀ ch ∈ p', ch ≠ '%' ∧ ch ≠ '_' := fun ch h => hp ch (by simp [h])
    cases s with
    | nil =>
      simp [likeMatch, List.isPrefixOf, hc.1]
    | cons d s' =>
      rw [List.cons_append, likeMatch, if_neg hc.1, if_neg hc.2, ih hp' s']
      simp [List.isPrefixOf]

theorem likeMatch_infix (p : List Char) (hp : ∀ ch ∈ p, ch ≠ '%' ∧ ch ≠ '_') :
    ∀ s : List Char, likeMatch ('%' :: (p ++ ['%'])) s = isInfixB p s := by
  intro s
  induction s with
  | nil =>
    rw [likeMatch]
    simp only [beq_self_eq_true, Bool.true_and, likeMatch_append_percent p hp []]
    cases p <;> simp [isInfixB, List.isPrefixOf]
  | cons d s' ih =>
    rw [likeMatch, if_pos rfl, likeMatch_append_percent p hp, ih]
    rw [isInfixB]

/-- Characters surviving ASCII case folding: lowercasing never
produces a LIKE wildcard. -/
theorem char_toNat_ofNat_small (n : Nat) (h : n < 55296) :
    (Char.ofNat n).toNat = n := by
  unfold Char.ofNat
  rw [dif_pos (Or.inl h : Char.isValidCharNat n)]
  rfl

theorem toLower_ne_wildcard (c : Char) (hpc : c ≠ '%') (huc : c ≠ '_') :
    c.toLower ≠ '%' ∧ c.toLower ≠ '_' := by
  unfold Char.toLower
  show (if c.toNat ≥ 65 ∧ c.toNat ≤ 90 then Char.ofNat (c.toNat + 32) else c) ≠ '%' ∧
    (if c.toNat ≥ 65 ∧ c.toNat ≤ 90 then Char.ofNat (c.toNat + 32) else c) ≠ '_'
  split
  · next hrange =>
    refine ⟨fun h => ?_, fun h => ?_⟩
    · have h' := congrArg Char.toNat h
      rw [char_toNat_ofNat_small _ (by omega)] at h'
      have h37 : Char.toNat '%' = 37 := rfl
      rw [h37] at h'
      omega
    · have h' := congrArg Char.toNat h
      rw [char_toNat_ofNat_small _ (by omega)] at h'
      have h95 : Char.toNat '_' = 95 := rfl
      rw [h95] at h'
      omega
  · exact ⟨hpc, huc⟩

theorem lowerChars_wildcard_free (s : String)
    (hw : ∀ ch ∈ s.data, ch ≠ '%' ∧ ch ≠ '_') :
    ∀ ch ∈ lowerChars s, ch ≠ '%' ∧ ch ≠ '_' := by
  intro ch hch
  obtain ⟨c, hc, rfl⟩ := List.mem_map.mp hch
  exact toLower_ne_wildcard c (hw c hc).1 (hw c hc).2

def exClienteAB : Cliente :=
  { id := 7, nome := "ab", email := "ab@ex.com", idade := none,
    cpf := "55345678901", cnpj := none, cep := none, endereco := none,
    telefone := none, data_criacao := 0 }

def exDB7 : DB := { clientes := [exClienteAB], pedidos := [], now := 0 }

/-- C7 counterexample: for the query "a%b" the `%` acts as an SQL LIKE
wildcard, so SearchByName returns the customer named "ab" even though
"ab" does not contain "a%b" as a substring — the claimed
characterization fails for queries holding wildcard characters. -/
theorem c7_counterexample :
    buscar_por_nome exDB7 "a%b" ≠
      exDB7.clientes.filter (fun c => nameContainsCI c.nome "a%b") := by
  have hL : buscar_por_nome exDB7 "a%b" = [exClienteAB] := by
    simp [buscar_por_nome, exDB7, lowerChars, likeMatch, exClienteAB]
  have hR : exDB7.clientes.filter (fun c => nameContainsCI c.nome "a%b") = [] := by
    decide
  rw [hL, hR]
  simp

/-- C7 (amended): for every store and every query free of the SQL LIKE
wildcard characters '%' and '_', SearchByName returns exactly the
customers whose name contains the query as a case-insensitive
substring — so it returns the empty list when no name matches and
never fails. -/
theorem c7_search_substring (db : DB) (nome : String)
    (hw : ∀ ch ∈ nome.data, ch ≠ '%' ∧ ch ≠ '_') :
    buscar_por_nome db nome =
      db.clientes.filter (fun c => nameContainsCI c.nome nome) := by
  unfold buscar_por_nome nameContainsCI
  refine List.filter_congr ?_
  intro c _
  exact likeMatch_infix (lowerChars nome) (lowerChars_wildcard_free nome hw) (lowerChars c.nome)

def exClienteMaria : Cliente :=
  { id := 3, nome := "Maria Silva", email := "msilva@ex.com", idade := none,
    cpf := "44345678901", cnpj := none, cep := none, endereco := none,
    telefone := none, data_criacao := 0 }

def exDBMaria : DB := { clientes := [exClienteMaria], pedidos := [], now := 0 }

/-- Witness for the amended C7: a customer named "Maria Silva" is
found by the queries "maria", "SILVA" and "ia Si", and a non-matching
query returns the empty list. -/
theorem c7_search_substring_witness :
    buscar_por_nome exDBMaria "maria" = [exClienteMaria] ∧
    buscar_por_nome exDBMaria "SILVA" = [exClienteMaria] ∧
    buscar_por_nome exDBMaria "ia Si" = [exClienteMaria] ∧
    buscar_por_nome exDBMaria "pedro" = [] := by
  rw [c7_search_substring exDBMaria "maria" (by decide),
    c7_search_substring exDBMaria "SILVA" (by decide),
    c7_search_substring exDBMaria "ia Si" (by decide),
    c7_search_substring exDBMaria "pedro" (by decide)]
  refine ⟨by decide, by decide, by decide, by decide⟩

/-! ### The uniqueness invariant -/

theorem validar_cpf_unico_ok_inv (db : DB) (cpf : String)
    (h : validar_cpf_unico db cpf = .ok ()) :
    ∀ c ∈ db.clientes, c.cpf ≠ cpf := by
  intro c hc
  unfold validar_cpf_unico at h
  cases hf : db.clientes.find? (fun x => x.cpf == cpf) with
  | some x => rw [hf] at h; cases h
  | none => simpa using List.find?_eq_none.mp hf c hc

theorem validar_email_unico_ok_inv (db : DB) (email : String)
    (h : validar_email_unico db email = .ok ()) :
    ∀ c ∈ db.clientes, c.email ≠ email := by
  intro c hc
  unfold validar_email_unico at h
  cases hf : db.clientes.find? (fun x => x.email == email) with
  | some x => rw [hf] at h; cases h
  | none => simpa using List.find?_eq_none.mp hf c hc

theorem mem_replaceFirst_of_find? {α} (p : α → Bool) (f : α → α) :
    ∀ (l : List α) (c : α), l.find? p = some c →
      ∀ y ∈ replaceFirst p f l, y ∈ l ∨ y = f c := by
  intro l
  induction l with
  | nil => intro c h; cases h
  | cons x xs ih =>
    intro c hfind y hy
    rw [List.find?_cons] at hfind
    cases hx : p x with
    | true =>
      rw [hx] at hfind
      cases hfind
      rw [replaceFirst, if_pos hx] at hy
      rcases List.mem_cons.mp hy with h | h
      · right; exact h
      · left; exact List.mem_cons_of_mem _ h
    | false =>
      rw [hx] at hfind
      rw [replaceFirst, if_neg (by simp [hx])] at hy
      rcases List.mem_cons.mp hy with h | h
      · left; simp [h]
      · rcases ih c hfind y h with h' | h'
        · left; simp [h']
        · right; exact h'

theorem pairwise_replaceFirst {α} (R : α → α → Prop) (p : α → Bool) (f : α → α) :
    ∀ (l : List α) (c : α), l.find? p = some c → l.Pairwise R →
      (∀ x ∈ l, R x c → R x (f c)) → (∀ x ∈ l, R c x → R (f c) x) →
      (replaceFirst p f l).Pairwise R := by
  intro l
  induction l with
  | nil => intro c h; cases h
  | cons x xs ih =>
    intro c hfind hp hf1 hf2
    rw [List.pairwise_cons] at hp
    rw [List.find?_cons] at hfind
    cases hx : p x with
    | true =>
      rw [hx] at hfind
      cases hfind
      rw [replaceFirst, if_pos hx, List.pairwise_cons]
      exact ⟨fun y hy => hf2 y (List.mem_cons_of_mem _ hy) (hp.1 y hy), hp.2⟩
    | false =>
      rw [hx] at hfind
      have hcmem : c ∈ xs := List.mem_of_find?_eq_some hfind
      rw [replaceFirst, if_neg (by simp [hx]), List.pairwise_cons]
      constructor
      · intro y hy
        rcases mem_replaceFirst_of_find? p f xs c hfind y hy with h' | h'
        · exact hp.1 y h'
        · subst h'
          exact hf1 x (List.mem_cons_self x xs) (hp.1 c hcmem)
      · exact ih c hfind hp.2
          (fun z hz => hf1 z (List.mem_cons_of_mem _ hz))
          (fun z hz => hf2 z (List.mem_cons_of_mem _ hz))

theorem removeFirst_sublist {α} (p : α → Bool) :
    ∀ l : List α, List.Sublist (removeFirst p l) l := by
  intro l
  induction l with
  | nil => exact List.Sublist.refl _
  | cons x xs ih =>
    rw [removeFirst]
    split
    · exact List.sublist_cons_self x xs
    · exact ih.cons₂ x

/-- The uniqueness invariant of C6: no two customer rows share an
email and no two share a cpf. -/
def Uniq (db : DB) : Prop :=
  db.clientes.Pairwise (fun a b => a.email ≠ b.email ∧ a.cpf ≠ b.cpf)

theorem uniq_criar (db : DB) (d : ClienteCreate) (h : Uniq db) :
    Uniq (criar_cliente db d).2 := by
  unfold criar_cliente
  cases h1 : validar_cpf_unico db d.cpf with
  | error e => exact h
  | ok _ =>
    cases h2 : validar_email_unico db d.email with
    | error e => exact h
    | ok _ =>
      dsimp only
      by_cases hv : violatesUnique db (novoCliente db d) = true
      · rw [if_pos hv]
        exact h
      · rw [if_neg hv]
        unfold Uniq
        rw [List.pairwise_append]
        refine ⟨h, List.pairwise_singleton _ _, ?_⟩
        intro a ha b hb
        rw [List.mem_singleton] at hb
        subst hb
        exact ⟨validar_email_unico_ok_inv db d.email h2 a ha,
          validar_cpf_unico_ok_inv db d.cpf h1 a ha⟩

theorem uniq_atualizar (db : DB) (cliente_id : Nat) (u : ClienteUpdate)
    (hval : ∀ e, u.email = some e → e ≠ "") (h : Uniq db) :
    Uniq (atualizar_cliente db cliente_id u).2 := by
  unfold atualizar_cliente
  cases hfind : findClienteById db cliente_id with
  | none => exact h
  | some c =>
    have hfind' : db.clientes.find? (fun x => x.id == cliente_id) = some c := hfind
    cases hu : u.email with
    | none =>
      refine pairwise_replaceFirst _ _ _ db.clientes c hfind' h ?_ ?_
      · intro x _ hr
        exact ⟨by simpa [applyUpdate, hu] using hr.1, by simpa [applyUpdate] using hr.2⟩
      · intro x _ hr
        exact ⟨by simpa [applyUpdate, hu] using hr.1, by simpa [applyUpdate] using hr.2⟩
    | some e =>
      dsimp only
      by_cases hcond : (e != "" && e != c.email) = true
      · rw [if_pos hcond]
        cases hv : validar_email_unico db e with
        | error err => exact h
        | ok _ =>
          have hfresh := validar_email_unico_ok_inv db e hv
          refine pairwise_replaceFirst _ _ _ db.clientes c hfind' h ?_ ?_
          · intro x hx hr
            exact ⟨by simpa [applyUpdate, hu] using hfresh x hx,
              by simpa [applyUpdate] using hr.2⟩
          · intro x hx hr
            exact ⟨by simpa [applyUpdate, hu] using (hfresh x hx).symm,
              by simpa [applyUpdate] using hr.2⟩
      · rw [if_neg hcond]
        have he : e = c.email := by
          have h0 : e ≠ "" := hval e hu
          simp only [Bool.and_eq_true, bne_iff_ne, ne_eq] at hcond
          by_contra hne
          exact hcond ⟨h0, hne⟩
        refine pairwise_replaceFirst _ _ _ db.clientes c hfind' h ?_ ?_
        · intro x _ hr
          exact ⟨by simpa [applyUpdate, hu, he] using hr.1,
            by simpa [applyUpdate] using hr.2⟩
        · intro x _ hr
          exact ⟨by simpa [applyUpdate, hu, he] using hr.1,
            by simpa [applyUpdate] using hr.2⟩

theorem uniq_atualizar_email (db : DB) (cliente_id : Nat) (novo_email : String)
    (h : Uniq db) : Uniq (atualizar_email db cliente_id novo_email).2 := by
  unfold atualizar_email
  cases hfind : findClienteById db cliente_id with
  | none => exact h
  | some c =>
    have hfind' : db.clientes.find? (fun x => x.id == cliente_id) = some c := hfind
    dsimp only
    by_cases hcond : (novo_email != c.email) = true
    · rw [if_pos hcond]
      cases hv : validar_email_unico db novo_email with
      | error err => exact h
      | ok _ =>
        have hfresh := validar_email_unico_ok_inv db novo_email hv
        refine pairwise_replaceFirst _ _ _ db.clientes c hfind' h ?_ ?_
        · intro x hx hr
          exact ⟨hfresh x hx, hr.2⟩
        · intro x hx hr
          exact ⟨(hfresh x hx).symm, hr.2⟩
    · rw [if_neg hcond]
      have he : novo_email = c.email := by simpa using hcond
      refine pairwise_replaceFirst _ _ _ db.clientes c hfind' h ?_ ?_
      · intro x _ hr
        exact ⟨he ▸ hr.1, hr.2⟩
      · intro x _ hr
        exact ⟨he ▸ hr.1, hr.2⟩

theorem uniq_deletar (db : DB) (cliente_id : Nat) (h : Uniq db) :
    Uniq (deletar_cliente db cliente_id).2 := by
  unfold deletar_cliente
  cases hfind : findClienteById db cliente_id with
  | none => exact h
  | some c =>
    dsimp only
    by_cases hn : (pedidosDe db c.id).length > 0
    · rw [if_pos hn]; exact h
    · rw [if_neg hn]
      exact h.sublist (removeFirst_sublist _ _)

/-- An operation of the C6 operation set, with the input the HTTP
boundary hands the service. -/
inductive Op where
  | create (d : ClienteCreate)
  | update (cliente_id : Nat) (u : ClienteUpdate)
  | updateEmail (cliente_id : Nat) (novo_email : String)
  | delete (cliente_id : Nat)

/-- The store an operation leaves behind (failed operations leave it
unchanged). -/
def applyOp (db : DB) : Op → DB
  | .create d => (criar_cliente db d).2
  | .update cliente_id u => (atualizar_cliente db cliente_id u).2
  | .updateEmail cliente_id e => (atualizar_email db cliente_id e).2
  | .delete cliente_id => (deletar_cliente db cliente_id).2

/-- What the boundary validates before the service runs: pydantic
`EmailStr` fields of the POST and PUT bodies are valid — in
particular nonempty — email strings.  The PATCH email route takes a
plain `str` query parameter, so UpdateEmail carries no constraint. -/
def Op.valid : Op → Prop
  | .create d => d.email ≠ ""
  | .update _ u => ∀ e, u.email = some e → e ≠ ""
  | .updateEmail _ _ => True
  | .delete _ => True

/-- Store states reachable from the empty store by boundary-valid
operations. -/
inductive Reachable : DB → Prop
  | empty (t : Nat) : Reachable { clientes := [], pedidos := [], now := t }
  | step (db : DB) (op : Op) : Reachable db → op.valid → Reachable (applyOp db op)

/-- C6: in every store reachable from the empty store by any sequence
of Create, Update, UpdateEmail and Delete operations, no two customer
records share an email and no two share a cpf. -/
theorem c6_uniqueness_invariant (db : DB) (h : Reachable db) : Uniq db := by
  induction h with
  | empty t => exact List.Pairwise.nil
  | step db op _ hv ih =>
    cases op with
    | create d => exact uniq_criar db d ih
    | update cliente_id u => exact uniq_atualizar db cliente_id u hv ih
    | updateEmail cliente_id e => exact uniq_atualizar_email db cliente_id e ih
    | delete cliente_id => exact uniq_deletar db cliente_id ih

/-- Witness for C6: a concrete reachable store (two creates, then an
email update) satisfies the invariant. -/
theorem c6_uniqueness_invariant_witness :
    Uniq (applyOp (applyOp (applyOp { clientes := [], pedidos := [], now := 0 }
      (Op.create exCreateFresh)) (Op.create exCreateSameCpf)) (Op.updateEmail 1 "z@ex.com")) :=
  c6_uniqueness_invariant _
    (Reachable.step _ _
      (Reachable.step _ _
        (Reachable.step _ _ (Reachable.empty 0) (by simp [Op.valid, exCreateFresh]))
        (by simp [Op.valid, exCreateSameCpf]))
      trivial)

end ClientesApi
